import Mathlib

/-!
Verification of the chunk-planning and orchestration logic of `app.py`
(video splitter).  Durations and chunk lengths are modelled as rationals,
external subprocess / library outcomes as boolean oracles, and the two
splitter strategies as functions producing their planned invocations and
event traces.
-/

namespace SplitMovie

/-- An output file, identified by the output directory and the file name
inside it (modelling `os.path.join(output_dir, name)`). -/
structure OutFile where
  dir : String
  name : String
deriving DecidableEq

/-- The output file naming of `app.py`: the text `chunk_` followed by the
1-based index, followed by the input file's extension. -/
def chunkFile (dir : String) (idx : Nat) (ext : String) : OutFile :=
  ⟨dir, "chunk_" ++ toString idx ++ ext⟩

/-- `math.ceil(duration / chunk_duration)`: the chunk count computed in both
`split_video_ffmpeg` (app.py line 59) and `split_video_moviepy` (line 129). -/
def num_chunks (duration chunk_duration : ℚ) : ℤ :=
  ⌈duration / chunk_duration⌉

/-- One ffmpeg invocation planned by the loop of `split_video_ffmpeg`
(app.py lines 74-87): `-ss start_time -t window`, writing to `output`.
The code always passes `window = chunk_duration` (line 82). -/
structure FfmpegCmd where
  index : Nat
  start_time : ℚ
  window : ℚ
  output : OutFile
deriving DecidableEq

/-- The end offset implied by an ffmpeg invocation's arguments: the `-ss`
start offset plus the `-t` duration window. -/
def ffmpegChunkEnd (c : FfmpegCmd) : ℚ := c.start_time + c.window

/-- The ordered list of ffmpeg invocations issued by `split_video_ffmpeg`
for a given probed duration and chunk length. -/
def ffmpegPlan (duration chunk_duration : ℚ) (dir ext : String) : List FfmpegCmd :=
  (List.range (num_chunks duration chunk_duration).toNat).map fun i =>
    ⟨i + 1, (i : ℚ) * chunk_duration, chunk_duration, chunkFile dir (i + 1) ext⟩

/-- One chunk planned by `split_video_moviepy` (app.py lines 141-145):
`start_time = i * chunk_duration`,
`end_time = min((i + 1) * chunk_duration, duration)`. -/
structure MoviepyChunk where
  index : Nat
  start_time : ℚ
  end_time : ℚ
  output : OutFile
deriving DecidableEq

/-- The ordered list of chunks processed by `split_video_moviepy`. -/
def moviepyPlan (duration chunk_duration : ℚ) (dir ext : String) : List MoviepyChunk :=
  (List.range (num_chunks duration chunk_duration).toNat).map fun i =>
    ⟨i + 1, (i : ℚ) * chunk_duration,
      min (((i : ℚ) + 1) * chunk_duration) duration, chunkFile dir (i + 1) ext⟩

theorem num_chunks_pos {D L : ℚ} (hD : 0 < D) (hL : 0 < L) :
    0 < num_chunks D L :=
  Int.ceil_pos.mpr (div_pos hD hL)

theorem start_lt_duration {D L : ℚ} (hL : 0 < L) {i : ℕ}
    (hi : i < (num_chunks D L).toNat) : (i : ℚ) * L < D := by
  have h1 : (i : ℤ) < num_chunks D L := Int.lt_toNat.mp hi
  have h2 : (i : ℚ) < D / L := by
    have h3 := Int.lt_ceil.mp h1
    push_cast at h3
    exact h3
  exact (lt_div_iff₀ hL).mp h2

theorem cover_index {D L t : ℚ} (hL : 0 < L) (ht0 : 0 ≤ t) (htD : t < D) :
    ∃ i : ℕ, i < (num_chunks D L).toNat ∧ (i : ℚ) * L ≤ t ∧
      t < ((i : ℚ) + 1) * L := by
  have hq0 : 0 ≤ t / L := div_nonneg ht0 hL.le
  have hfl0 : 0 ≤ ⌊t / L⌋ := Int.floor_nonneg.mpr hq0
  have hcast : ((⌊t / L⌋.toNat : ℕ) : ℚ) = ((⌊t / L⌋ : ℤ) : ℚ) := by
    rw [← Int.cast_natCast, Int.toNat_of_nonneg hfl0]
  refine ⟨⌊t / L⌋.toNat, ?_, ?_, ?_⟩
  · have hlt : ⌊t / L⌋ < num_chunks D L := by
      rw [num_chunks, Int.lt_ceil]
      exact lt_of_le_of_lt (Int.floor_le _) (by gcongr)
    have := Int.toNat_lt_toNat (lt_of_le_of_lt hfl0 hlt) |>.mpr hlt
    exact this
  · rw [hcast]
    exact (le_div_iff₀ hL).mp (Int.floor_le _)
  · rw [hcast]
    have h4 : t / L < (⌊t / L⌋ : ℚ) + 1 := Int.lt_floor_add_one _
    exact (div_lt_iff₀ hL).mp h4

theorem ffmpegPlan_length (D L : ℚ) (dir ext : String) :
    (ffmpegPlan D L dir ext).length = (num_chunks D L).toNat := by
  simp [ffmpegPlan]

theorem moviepyPlan_length (D L : ℚ) (dir ext : String) :
    (moviepyPlan D L dir ext).length = (num_chunks D L).toNat := by
  simp [moviepyPlan]

theorem ffmpegPlan_get (D L : ℚ) (dir ext : String) (i : ℕ)
    (h : i < (ffmpegPlan D L dir ext).length) :
    (ffmpegPlan D L dir ext).get ⟨i, h⟩ =
      ⟨i + 1, (i : ℚ) * L, L, chunkFile dir (i + 1) ext⟩ := by
  simp [ffmpegPlan, List.get_eq_getElem]

theorem moviepyPlan_get (D L : ℚ) (dir ext : String) (i : ℕ)
    (h : i < (moviepyPlan D L dir ext).length) :
    (moviepyPlan D L dir ext).get ⟨i, h⟩ =
      ⟨i + 1, (i : ℚ) * L, min (((i : ℚ) + 1) * L) D, chunkFile dir (i + 1) ext⟩ := by
  simp [moviepyPlan, List.get_eq_getElem]

/-- Claim C1: for every duration D > 0 and chunk length L > 0, both splitter
strategies plan exactly ceil(D / L) chunks, chunk i (0-based) starting at
i * L, and the planned ranges are contiguous, non-overlapping, ordered, and
cover [0, D). -/
theorem chunk_plans_cover (D L : ℚ) (dir ext : String) (hD : 0 < D) (hL : 0 < L) :
    (((ffmpegPlan D L dir ext).length : ℤ) = ⌈D / L⌉ ∧
      ((moviepyPlan D L dir ext).length : ℤ) = ⌈D / L⌉) ∧
    (∀ i, ∀ h : i < (ffmpegPlan D L dir ext).length,
        ((ffmpegPlan D L dir ext).get ⟨i, h⟩).start_time = (i : ℚ) * L) ∧
    (∀ i, ∀ h : i < (moviepyPlan D L dir ext).length,
        ((moviepyPlan D L dir ext).get ⟨i, h⟩).start_time = (i : ℚ) * L) ∧
    (∀ i, ∀ h1 : i < (ffmpegPlan D L dir ext).length,
      ∀ h2 : i + 1 < (ffmpegPlan D L dir ext).length,
        ffmpegChunkEnd ((ffmpegPlan D L dir ext).get ⟨i, h1⟩)
          = ((ffmpegPlan D L dir ext).get ⟨i + 1, h2⟩).start_time) ∧
    (∀ i, ∀ h1 : i < (moviepyPlan D L dir ext).length,
      ∀ h2 : i + 1 < (moviepyPlan D L dir ext).length,
        ((moviepyPlan D L dir ext).get ⟨i, h1⟩).end_time
          = ((moviepyPlan D L dir ext).get ⟨i + 1, h2⟩).start_time) ∧
    (∀ i j, ∀ hi : i < (ffmpegPlan D L dir ext).length,
      ∀ hj : j < (ffmpegPlan D L dir ext).length, i < j →
        ffmpegChunkEnd ((ffmpegPlan D L dir ext).get ⟨i, hi⟩)
          ≤ ((ffmpegPlan D L dir ext).get ⟨j, hj⟩).start_time) ∧
    (∀ i j, ∀ hi : i < (moviepyPlan D L dir ext).length,
      ∀ hj : j < (moviepyPlan D L dir ext).length, i < j →
        ((moviepyPlan D L dir ext).get ⟨i, hi⟩).end_time
          ≤ ((moviepyPlan D L dir ext).get ⟨j, hj⟩).start_time) ∧
    (∀ t : ℚ, 0 ≤ t → t < D → ∃ i, ∃ h : i < (ffmpegPlan D L dir ext).length,
        ((ffmpegPlan D L dir ext).get ⟨i, h⟩).start_time ≤ t ∧
        t < ffmpegChunkEnd ((ffmpegPlan D L dir ext).get ⟨i, h⟩)) ∧
    (∀ t : ℚ, 0 ≤ t → t < D → ∃ i, ∃ h : i < (moviepyPlan D L dir ext).length,
        ((moviepyPlan D L dir ext).get ⟨i, h⟩).start_time ≤ t ∧
        t < ((moviepyPlan D L dir ext).get ⟨i, h⟩).end_time) := by
  have hnn : (0 : ℤ) ≤ num_chunks D L := (num_chunks_pos hD hL).le
  refine ⟨⟨?_, ?_⟩, ?_, ?_, ?_, ?_, ?_, ?_, ?_, ?_⟩
  · rw [ffmpegPlan_length, Int.toNat_of_nonneg hnn, num_chunks]
  · rw [moviepyPlan_length, Int.toNat_of_nonneg hnn, num_chunks]
  · intro i h
    rw [ffmpegPlan_get]
  · intro i h
    rw [moviepyPlan_get]
  · intro i h1 h2
    rw [ffmpegPlan_get, ffmpegPlan_get, ffmpegChunkEnd]
    push_cast
    ring
  · intro i h1 h2
    rw [moviepyPlan_get, moviepyPlan_get]
    have hlt : ((i : ℚ) + 1) * L < D := by
      have h3 : i + 1 < (num_chunks D L).toNat := by
        rwa [moviepyPlan_length D L dir ext] at h2
      have h4 := start_lt_duration (D := D) hL h3
      push_cast at h4
      linarith
    simp only [min_eq_left hlt.le]
    push_cast
    ring
  · intro i j hi hj hij
    rw [ffmpegPlan_get, ffmpegPlan_get, ffmpegChunkEnd]
    dsimp only
    have h3 : (i : ℚ) + 1 ≤ (j : ℚ) := by exact_mod_cast hij
    nlinarith
  · intro i j hi hj hij
    rw [moviepyPlan_get, moviepyPlan_get]
    dsimp only
    have h3 : (i : ℚ) + 1 ≤ (j : ℚ) := by exact_mod_cast hij
    have h4 : ((i : ℚ) + 1) * L ≤ (j : ℚ) * L := by nlinarith
    exact le_trans (min_le_left _ _) h4
  · intro t ht0 htD
    obtain ⟨i, hi, h1, h2⟩ := cover_index (D := D) hL ht0 htD
    have hlen : i < (ffmpegPlan D L dir ext).length := by
      rwa [ffmpegPlan_length]
    refine ⟨i, hlen, ?_, ?_⟩
    · rwa [ffmpegPlan_get]
    · rw [ffmpegPlan_get, ffmpegChunkEnd]
      simpa [add_mul] using h2
  · intro t ht0 htD
    obtain ⟨i, hi, h1, h2⟩ := cover_index (D := D) hL ht0 htD
    have hlen : i < (moviepyPlan D L dir ext).length := by
      rwa [moviepyPlan_length]
    refine ⟨i, hlen, ?_, ?_⟩
    · rwa [moviepyPlan_get]
    · rw [moviepyPlan_get]
      exact lt_min h2 htD

/-- Witness for `chunk_plans_cover` at D = 150, L = 60. -/
theorem chunk_plans_cover_at_150_60 :
    (0 : ℚ) < 150 ∧ (0 : ℚ) < 60 ∧
    ((((ffmpegPlan 150 60 "output_chunks" ".mp4").length : ℤ) = ⌈(150 : ℚ) / 60⌉ ∧
      ((moviepyPlan 150 60 "output_chunks" ".mp4").length : ℤ) = ⌈(150 : ℚ) / 60⌉) ∧
    (∀ i, ∀ h : i < (ffmpegPlan 150 60 "output_chunks" ".mp4").length,
        ((ffmpegPlan 150 60 "output_chunks" ".mp4").get ⟨i, h⟩).start_time = (i : ℚ) * 60) ∧
    (∀ i, ∀ h : i < (moviepyPlan 150 60 "output_chunks" ".mp4").length,
        ((moviepyPlan 150 60 "output_chunks" ".mp4").get ⟨i, h⟩).start_time = (i : ℚ) * 60) ∧
    (∀ i, ∀ h1 : i < (ffmpegPlan 150 60 "output_chunks" ".mp4").length,
      ∀ h2 : i + 1 < (ffmpegPlan 150 60 "output_chunks" ".mp4").length,
        ffmpegChunkEnd ((ffmpegPlan 150 60 "output_chunks" ".mp4").get ⟨i, h1⟩)
          = ((ffmpegPlan 150 60 "output_chunks" ".mp4").get ⟨i + 1, h2⟩).start_time) ∧
    (∀ i, ∀ h1 : i < (moviepyPlan 150 60 "output_chunks" ".mp4").length,
      ∀ h2 : i + 1 < (moviepyPlan 150 60 "output_chunks" ".mp4").length,
        ((moviepyPlan 150 60 "output_chunks" ".mp4").get ⟨i, h1⟩).end_time
          = ((moviepyPlan 150 60 "output_chunks" ".mp4").get ⟨i + 1, h2⟩).start_time) ∧
    (∀ i j, ∀ hi : i < (ffmpegPlan 150 60 "output_chunks" ".mp4").length,
      ∀ hj : j < (ffmpegPlan 150 60 "output_chunks" ".mp4").length, i < j →
        ffmpegChunkEnd ((ffmpegPlan 150 60 "output_chunks" ".mp4").get ⟨i, hi⟩)
          ≤ ((ffmpegPlan 150 60 "output_chunks" ".mp4").get ⟨j, hj⟩).start_time) ∧
    (∀ i j, ∀ hi : i < (moviepyPlan 150 60 "output_chunks" ".mp4").length,
      ∀ hj : j < (moviepyPlan 150 60 "output_chunks" ".mp4").length, i < j →
        ((moviepyPlan 150 60 "output_chunks" ".mp4").get ⟨i, hi⟩).end_time
          ≤ ((moviepyPlan 150 60 "output_chunks" ".mp4").get ⟨j, hj⟩).start_time) ∧
    (∀ t : ℚ, 0 ≤ t → t < 150 →
      ∃ i, ∃ h : i < (ffmpegPlan 150 60 "output_chunks" ".mp4").length,
        ((ffmpegPlan 150 60 "output_chunks" ".mp4").get ⟨i, h⟩).start_time ≤ t ∧
        t < ffmpegChunkEnd ((ffmpegPlan 150 60 "output_chunks" ".mp4").get ⟨i, h⟩)) ∧
    (∀ t : ℚ, 0 ≤ t → t < 150 →
      ∃ i, ∃ h : i < (moviepyPlan 150 60 "output_chunks" ".mp4").length,
        ((moviepyPlan 150 60 "output_chunks" ".mp4").get ⟨i, h⟩).start_time ≤ t ∧
        t < ((moviepyPlan 150 60 "output_chunks" ".mp4").get ⟨i, h⟩).end_time)) :=
  ⟨by norm_num, by norm_num,
    chunk_plans_cover 150 60 "output_chunks" ".mp4" (by norm_num) (by norm_num)⟩

theorem num_chunks_150_60 : num_chunks 150 60 = 3 := by
  rw [num_chunks, Int.ceil_eq_iff]
  norm_num

/-- Claim C2 counterexample: at D = 150, L = 60 the FFmpeg strategy's third
planned invocation (0-based index 2) is issued with start 120 and a fixed
window of 60, so its end offset is 180, not min(3 * 60, 150) = 150: the
FFmpeg path does not clip the final chunk's window to the remaining
duration. -/
theorem ffmpeg_end_offset_not_min_at_150_60 :
    (ffmpegPlan 150 60 "output_chunks" ".mp4").map ffmpegChunkEnd
      = [60, 120, 180] ∧
    min (((2 : ℚ) + 1) * 60) 150 = 150 ∧ (180 : ℚ) ≠ 150 := by
  refine ⟨?_, by norm_num, by norm_num⟩
  rw [ffmpegPlan, num_chunks_150_60]
  simp [List.range_succ, ffmpegChunkEnd]
  norm_num

/-- Claim C2 (amended): in the MoviePy strategy each chunk's end offset is
min((i+1) * L, D), every chunk's length is ≤ L, and the final chunk ends
exactly at D; in the FFmpeg strategy every invocation is issued with a fixed
duration window equal to the chunk length, so its implied end offset is
(i+1) * L, with clipping at the source's end left to the external tool. -/
theorem chunk_end_offsets (D L : ℚ) (dir ext : String) (hD : 0 < D) (hL : 0 < L) :
    (∀ i, ∀ h : i < (moviepyPlan D L dir ext).length,
        ((moviepyPlan D L dir ext).get ⟨i, h⟩).end_time
          = min (((i : ℚ) + 1) * L) D ∧
        ((moviepyPlan D L dir ext).get ⟨i, h⟩).end_time
          - ((moviepyPlan D L dir ext).get ⟨i, h⟩).start_time ≤ L) ∧
    (∀ h : (moviepyPlan D L dir ext).length - 1 < (moviepyPlan D L dir ext).length,
        ((moviepyPlan D L dir ext).get
          ⟨(moviepyPlan D L dir ext).length - 1, h⟩).end_time = D) ∧
    (∀ i, ∀ h : i < (ffmpegPlan D L dir ext).length,
        ((ffmpegPlan D L dir ext).get ⟨i, h⟩).window = L ∧
        ffmpegChunkEnd ((ffmpegPlan D L dir ext).get ⟨i, h⟩)
          = ((i : ℚ) + 1) * L) := by
  refine ⟨?_, ?_, ?_⟩
  · intro i h
    rw [moviepyPlan_get]
    refine ⟨rfl, ?_⟩
    dsimp only
    have h1 : min (((i : ℚ) + 1) * L) D ≤ ((i : ℚ) + 1) * L := min_le_left _ _
    nlinarith
  · intro h
    rw [moviepyPlan_get]
    dsimp only
    have hN : 1 ≤ (moviepyPlan D L dir ext).length := by
      rw [moviepyPlan_length]
      have := num_chunks_pos hD hL
      omega
    have hcast : (((moviepyPlan D L dir ext).length - 1 : ℕ) : ℚ) + 1
        = (((moviepyPlan D L dir ext).length : ℕ) : ℚ) := by
      have : ((moviepyPlan D L dir ext).length - 1) + 1
          = (moviepyPlan D L dir ext).length := by omega
      exact_mod_cast congrArg (Nat.cast (R := ℚ)) this
    rw [hcast]
    have hDle : D ≤ ((moviepyPlan D L dir ext).length : ℚ) * L := by
      rw [moviepyPlan_length]
      have h2 : D / L ≤ ((num_chunks D L : ℤ) : ℚ) := Int.le_ceil _
      have h3 : (((num_chunks D L).toNat : ℕ) : ℚ) = ((num_chunks D L : ℤ) : ℚ) := by
        rw [← Int.cast_natCast, Int.toNat_of_nonneg (num_chunks_pos hD hL).le]
      rw [h3]
      exact (div_le_iff₀ hL).mp h2
    exact min_eq_right hDle
  · intro i h
    rw [ffmpegPlan_get, ffmpegChunkEnd]
    dsimp only
    exact ⟨rfl, by ring⟩

/-- Witness for `chunk_end_offsets` at D = 150, L = 60. -/
theorem chunk_end_offsets_at_150_60 :
    (0 : ℚ) < 150 ∧ (0 : ℚ) < 60 ∧
    ((∀ i, ∀ h : i < (moviepyPlan 150 60 "output_chunks" ".mp4").length,
        ((moviepyPlan 150 60 "output_chunks" ".mp4").get ⟨i, h⟩).end_time
          = min (((i : ℚ) + 1) * 60) 150 ∧
        ((moviepyPlan 150 60 "output_chunks" ".mp4").get ⟨i, h⟩).end_time
          - ((moviepyPlan 150 60 "output_chunks" ".mp4").get ⟨i, h⟩).start_time ≤ 60) ∧
    (∀ h : (moviepyPlan 150 60 "output_chunks" ".mp4").length - 1
        < (moviepyPlan 150 60 "output_chunks" ".mp4").length,
        ((moviepyPlan 150 60 "output_chunks" ".mp4").get
          ⟨(moviepyPlan 150 60 "output_chunks" ".mp4").length - 1, h⟩).end_time = 150) ∧
    (∀ i, ∀ h : i < (ffmpegPlan 150 60 "output_chunks" ".mp4").length,
        ((ffmpegPlan 150 60 "output_chunks" ".mp4").get ⟨i, h⟩).window = 60 ∧
        ffmpegChunkEnd ((ffmpegPlan 150 60 "output_chunks" ".mp4").get ⟨i, h⟩)
          = ((i : ℚ) + 1) * 60)) :=
  ⟨by norm_num, by norm_num,
    chunk_end_offsets 150 60 "output_chunks" ".mp4" (by norm_num) (by norm_num)⟩

/-- Environment of one `get_video_duration_ffmpeg` call (app.py lines 23-44).
`toolRuns` is whether the probing subprocess could be started at all (the
tool binary is present); `returncode` its exit status; `stdoutParse` the
outcome of `float(result.stdout.strip())`: `some v` on success, `none`
when the output is not parseable as a number (a `ValueError`). -/
structure ProbeEnv where
  toolRuns : Bool
  returncode : ℤ
  stdoutParse : Option ℚ
deriving DecidableEq

/-- `get_video_duration_ffmpeg` (app.py lines 23-44): every failure path
(missing tool, non-zero exit, unparseable output) is caught by the
enclosing try/except and turned into `None`. -/
def get_video_duration_ffmpeg (p : ProbeEnv) : Option ℚ :=
  if p.toolRuns then
    if p.returncode = 0 then p.stdoutParse else none
  else none

/-- Claim C7: for every input, the duration prober returns either a parsed
duration or `None`; it yields a value exactly when the tool could run,
exited with status 0 and its output parsed as a number, and in every other
case (missing tool, non-zero exit, unparseable output) it returns `None`
rather than propagating an exception (the function is total). -/
theorem probe_total_characterization (p : ProbeEnv) (v : ℚ) :
    (get_video_duration_ffmpeg p = some v ↔
      p.toolRuns = true ∧ p.returncode = 0 ∧ p.stdoutParse = some v) ∧
    (p.toolRuns = false → get_video_duration_ffmpeg p = none) ∧
    (p.returncode ≠ 0 → get_video_duration_ffmpeg p = none) ∧
    (p.stdoutParse = none → get_video_duration_ffmpeg p = none) := by
  unfold get_video_duration_ffmpeg
  rcases p with ⟨tr, rc, sp⟩
  refine ⟨?_, ?_, ?_, ?_⟩ <;> cases tr <;> simp_all

/-- Codec arguments passed to a `write_videofile` call. -/
structure CodecArgs where
  videoCodec : Option String
  audioCodec : Option String
deriving DecidableEq

/-- The codec arguments of the three fallback attempts in
`split_video_moviepy`: attempt 0 passes `codec='libx264'` and
`audio_codec='aac'` (app.py lines 154-159), attempt 1 passes only
`codec='libx264'` (lines 173-177), attempt 2 passes no codec arguments
(line 187). -/
def attemptCodecs : ℕ → CodecArgs
  | 0 => ⟨some "libx264", some "aac"⟩
  | 1 => ⟨some "libx264", none⟩
  | _ => ⟨none, none⟩

/-- Observable actions of the MoviePy strategy: opening a sub-range handle
(`video.subclip(start, end)`), a `write_videofile` call with its target and
codec arguments and outcome, closing a sub-range handle (`subclip.close()`),
and closing the top-level source handle (`video.close()`). -/
inductive MoviepyEvent where
  | subclipOpen (chunk attempt : ℕ) (startTime endTime : ℚ)
  | writeFile (chunk attempt : ℕ) (target : OutFile) (codecs : CodecArgs) (ok : Bool)
  | subclipClose (chunk attempt : ℕ)
  | videoClose
deriving DecidableEq

/-- The event trace and success flag of one chunk iteration of
`split_video_moviepy` (app.py lines 149-192).  `a j` tells whether the j-th
attempt's `write_videofile` call succeeds (`false` = raises).  The code
runs `subclip.close()` only on the line after a successful write; a raised
write jumps straight into the `except` handler, which opens a fresh subclip
over the same time window for the next attempt. -/
def moviepy_chunk_events (a : ℕ → Bool) (i : ℕ) (s e : ℚ) (t : OutFile) :
    List MoviepyEvent × Bool :=
  if a 0 then
    ([.subclipOpen i 0 s e, .writeFile i 0 t (attemptCodecs 0) true,
      .subclipClose i 0], true)
  else if a 1 then
    ([.subclipOpen i 0 s e, .writeFile i 0 t (attemptCodecs 0) false,
      .subclipOpen i 1 s e, .writeFile i 1 t (attemptCodecs 1) true,
      .subclipClose i 1], true)
  else if a 2 then
    ([.subclipOpen i 0 s e, .writeFile i 0 t (attemptCodecs 0) false,
      .subclipOpen i 1 s e, .writeFile i 1 t (attemptCodecs 1) false,
      .subclipOpen i 2 s e, .writeFile i 2 t (attemptCodecs 2) true,
      .subclipClose i 2], true)
  else
    ([.subclipOpen i 0 s e, .writeFile i 0 t (attemptCodecs 0) false,
      .subclipOpen i 1 s e, .writeFile i 1 t (attemptCodecs 1) false,
      .subclipOpen i 2 s e, .writeFile i 2 t (attemptCodecs 2) false], false)

/-- Whether an event is a successful `write_videofile` call. -/
def MoviepyEvent.isOkWrite : MoviepyEvent → Bool
  | .writeFile _ _ _ _ ok => ok
  | _ => false

/-- Whether an event is a `write_videofile` call of the given attempt. -/
def MoviepyEvent.isWriteOfAttempt (j : ℕ) : MoviepyEvent → Bool
  | .writeFile _ k _ _ _ => k == j
  | _ => false

/-- Result counters of one splitter run: `attempted` is the computed
`num_chunks` value the strategy reports against, `succeeded` its success
counter. -/
structure SplitResult where
  attempted : ℤ
  succeeded : ℕ
deriving DecidableEq

/-- The value of the success counter after the first `k` chunk iterations,
given the per-chunk outcome `p`. -/
def count_true_upto (p : ℕ → Bool) (k : ℕ) : ℕ :=
  ((List.range k).filter p).length

/-- Outcome of a `split_video_ffmpeg` call: the counters, the returned
boolean, and the list of ffmpeg invocations issued. -/
structure FfmpegRun where
  result : Option SplitResult
  success : Bool
  calls : List FfmpegCmd

/-- `split_video_ffmpeg` (app.py lines 46-100).  `probe` is the result of
its own `get_video_duration_ffmpeg` call; on `None` it returns `False`
before planning anything.  `chunkOk i` tells whether the subprocess call
for chunk `i` ran and exited with status 0 (an exception or a non-zero exit
is counted as a failure and the loop continues). -/
def split_video_ffmpeg (probe : Option ℚ) (dir ext : String)
    (chunk_duration : ℚ) (chunkOk : ℕ → Bool) : FfmpegRun :=
  match probe with
  | none => ⟨none, false, []⟩
  | some duration =>
      let n : ℤ := num_chunks duration chunk_duration
      let s : ℕ := count_true_upto chunkOk n.toNat
      ⟨some ⟨n, s⟩, decide ((s : ℤ) = n), ffmpegPlan duration chunk_duration dir ext⟩

/-- Outcome of a `split_video_moviepy` call. -/
structure MoviepyRun where
  result : Option SplitResult
  success : Bool
  events : List MoviepyEvent

/-- The event trace of chunk `i` of `split_video_moviepy`, with the window
and target file the code computes for it (app.py lines 141-145). -/
def moviepyChunkTrace (videoDuration chunk_duration : ℚ) (dir ext : String)
    (attemptOk : ℕ → ℕ → Bool) (i : ℕ) : List MoviepyEvent × Bool :=
  moviepy_chunk_events (attemptOk i) i ((i : ℚ) * chunk_duration)
    (min (((i : ℚ) + 1) * chunk_duration) videoDuration)
    (chunkFile dir (i + 1) ext)

/-- `split_video_moviepy` (app.py lines 102-198).  `editorOk` is whether
`from moviepy.editor import VideoFileClip` succeeds, `loadOk` whether
`VideoFileClip(input_path)` succeeds; either failure returns `False` before
planning anything.  `attemptOk i j` tells whether the j-th fallback write of
chunk `i` succeeds.  After the loop the top-level handle is closed once. -/
def split_video_moviepy (editorOk loadOk : Bool) (videoDuration : ℚ)
    (dir ext : String) (chunk_duration : ℚ)
    (attemptOk : ℕ → ℕ → Bool) : MoviepyRun :=
  if editorOk = false then ⟨none, false, []⟩
  else if loadOk = false then ⟨none, false, []⟩
  else
    let n : ℤ := num_chunks videoDuration chunk_duration
    let s : ℕ := count_true_upto
      (fun i => (moviepyChunkTrace videoDuration chunk_duration dir ext attemptOk i).2) n.toNat
    ⟨some ⟨n, s⟩, decide ((s : ℤ) = n),
      ((List.range n.toNat).flatMap fun i =>
        (moviepyChunkTrace videoDuration chunk_duration dir ext attemptOk i).1)
        ++ [.videoClose]⟩

theorem moviepy_chunk_write_mem (a : ℕ → Bool) (i : ℕ) (s e : ℚ) (t : OutFile)
    (c j : ℕ) (tr : OutFile) (cod : CodecArgs) (ok : Bool)
    (hmem : MoviepyEvent.writeFile c j tr cod ok ∈ (moviepy_chunk_events a i s e t).1) :
    c = i ∧ tr = t ∧ j ≤ 2 ∧ cod = attemptCodecs j ∧ ok = a j ∧
      MoviepyEvent.subclipOpen i j s e ∈ (moviepy_chunk_events a i s e t).1 ∧
      (1 ≤ j → a 0 = false) ∧ (2 ≤ j → a 1 = false) := by
  cases h0 : a 0 <;> cases h1 : a 1 <;> cases h2 : a 2 <;>
    simp only [moviepy_chunk_events, h0, h1, h2, Bool.false_eq_true, if_true, if_false,
      ite_true, ite_false, List.mem_cons, List.not_mem_nil, or_false] at hmem
  case false.false.false =>
    rcases hmem with h | h | h | h | h | h <;> (try cases h) <;>
      simp_all [moviepy_chunk_events]
  case false.false.true =>
    rcases hmem with h | h | h | h | h | h | h <;> (try cases h) <;>
      simp_all [moviepy_chunk_events]
  case false.true.false =>
    rcases hmem with h | h | h | h | h <;> (try cases h) <;>
      simp_all [moviepy_chunk_events]
  case false.true.true =>
    rcases hmem with h | h | h | h | h <;> (try cases h) <;>
      simp_all [moviepy_chunk_events]
  case true.false.false =>
    rcases hmem with h | h | h <;> (try cases h) <;>
      simp_all [moviepy_chunk_events]
  case true.false.true =>
    rcases hmem with h | h | h <;> (try cases h) <;>
      simp_all [moviepy_chunk_events]
  case true.true.false =>
    rcases hmem with h | h | h <;> (try cases h) <;>
      simp_all [moviepy_chunk_events]
  case true.true.true =>
    rcases hmem with h | h | h <;> (try cases h) <;>
      simp_all [moviepy_chunk_events]

/-- Claim C5: per chunk, the MoviePy strategy makes up to three write
attempts in order with the ladder's codec arguments, each on a freshly
extracted sub-range over the same time window and aimed at the same single
output file; the chunk is counted as succeeded exactly when some attempt
succeeds (failed only when all three raise), a later attempt runs only when
every earlier attempt failed, and at most one write succeeds. -/
theorem moviepy_fallback_ladder (a : ℕ → Bool) (i : ℕ) (s e : ℚ) (t : OutFile) :
    ((moviepy_chunk_events a i s e t).2 = (a 0 || a 1 || a 2)) ∧
    ((moviepy_chunk_events a i s e t).1.countP MoviepyEvent.isOkWrite ≤ 1) ∧
    ((moviepy_chunk_events a i s e t).1.countP (MoviepyEvent.isWriteOfAttempt 0) = 1) ∧
    ((moviepy_chunk_events a i s e t).1.countP (MoviepyEvent.isWriteOfAttempt 1)
      = if a 0 then 0 else 1) ∧
    ((moviepy_chunk_events a i s e t).1.countP (MoviepyEvent.isWriteOfAttempt 2)
      = if a 0 || a 1 then 0 else 1) ∧
    (∀ c j tr cod ok,
      MoviepyEvent.writeFile c j tr cod ok ∈ (moviepy_chunk_events a i s e t).1 →
        c = i ∧ tr = t ∧ j ≤ 2 ∧ cod = attemptCodecs j ∧ ok = a j ∧
        MoviepyEvent.subclipOpen i j s e ∈ (moviepy_chunk_events a i s e t).1 ∧
        (∀ k, k < j → a k = false)) := by
  refine ⟨?_, ?_, ?_, ?_, ?_, ?_⟩
  · cases h0 : a 0 <;> cases h1 : a 1 <;> cases h2 : a 2 <;>
      simp [moviepy_chunk_events, h0, h1, h2]
  · cases h0 : a 0 <;> cases h1 : a 1 <;> cases h2 : a 2 <;>
      simp [moviepy_chunk_events, h0, h1, h2, MoviepyEvent.isOkWrite, List.countP_cons]
  · cases h0 : a 0 <;> cases h1 : a 1 <;> cases h2 : a 2 <;>
      simp [moviepy_chunk_events, h0, h1, h2, MoviepyEvent.isWriteOfAttempt,
        List.countP_cons]
  · cases h0 : a 0 <;> cases h1 : a 1 <;> cases h2 : a 2 <;>
      simp [moviepy_chunk_events, h0, h1, h2, MoviepyEvent.isWriteOfAttempt,
        List.countP_cons]
  · cases h0 : a 0 <;> cases h1 : a 1 <;> cases h2 : a 2 <;>
      simp [moviepy_chunk_events, h0, h1, h2, MoviepyEvent.isWriteOfAttempt,
        List.countP_cons]
  · intro c j tr cod ok hmem
    obtain ⟨hc, htr, hj, hcod, hok, hopen, hp1, hp2⟩ :=
      moviepy_chunk_write_mem a i s e t c j tr cod ok hmem
    refine ⟨hc, htr, hj, hcod, hok, hopen, ?_⟩
    intro k hk
    have hk2 : k < 2 := by omega
    interval_cases k
    · exact hp1 (by omega)
    · exact hp2 (by omega)

theorem close_iff_okwrite (a : ℕ → Bool) (i : ℕ) (s e : ℚ) (t : OutFile) (j : ℕ) :
    MoviepyEvent.subclipClose i j ∈ (moviepy_chunk_events a i s e t).1 ↔
      MoviepyEvent.writeFile i j t (attemptCodecs j) true
        ∈ (moviepy_chunk_events a i s e t).1 := by
  cases h0 : a 0 <;> cases h1 : a 1 <;> cases h2 : a 2 <;>
    simp [moviepy_chunk_events, h0, h1, h2]
  all_goals (rintro rfl; rfl)

theorem chunk_events_no_videoClose (a : ℕ → Bool) (i : ℕ) (s e : ℚ) (t : OutFile) :
    ∀ ev ∈ (moviepy_chunk_events a i s e t).1, ev ≠ MoviepyEvent.videoClose := by
  cases h0 : a 0 <;> cases h1 : a 1 <;> cases h2 : a 2 <;>
    simp [moviepy_chunk_events, h0, h1, h2]

/-- Claim C8 counterexample: for a chunk whose first write raises and whose
second write succeeds, the first attempt's subclip handle is opened but
never closed — the `except` handler skips the `subclip.close()` line that
only follows a successful write.  So it is false that every opened
sub-range handle is released regardless of whether the write succeeded or
raised. -/
theorem subclip_leaked_on_failed_write :
    MoviepyEvent.subclipOpen 0 0 0 60
        ∈ (moviepy_chunk_events (fun j => decide (j = 1)) 0 0 60
            ⟨"output_chunks", "chunk_1.mp4"⟩).1 ∧
    MoviepyEvent.subclipClose 0 0
        ∉ (moviepy_chunk_events (fun j => decide (j = 1)) 0 0 60
            ⟨"output_chunks", "chunk_1.mp4"⟩).1 := by
  decide

/-- Claim C8 (amended): a sub-range handle is closed exactly when its
attempt's write succeeded — after a raised write the handle is abandoned
unclosed and the next fallback attempt opens a fresh one — and the
top-level source handle is closed exactly once, as the last action, after
all chunks have been processed. -/
theorem moviepy_close_discipline (a : ℕ → Bool) (i : ℕ) (s e : ℚ) (t : OutFile)
    (editorOk loadOk : Bool) (D L : ℚ) (dir ext : String)
    (attemptOk : ℕ → ℕ → Bool) (he : editorOk = true) (hl : loadOk = true) :
    (∀ j, MoviepyEvent.subclipClose i j ∈ (moviepy_chunk_events a i s e t).1 ↔
        MoviepyEvent.writeFile i j t (attemptCodecs j) true
          ∈ (moviepy_chunk_events a i s e t).1) ∧
    ((split_video_moviepy editorOk loadOk D dir ext L attemptOk).events.countP
        (fun ev => decide (ev = MoviepyEvent.videoClose)) = 1) ∧
    ((split_video_moviepy editorOk loadOk D dir ext L attemptOk).events.getLast?
        = some MoviepyEvent.videoClose) := by
  subst he
  subst hl
  refine ⟨close_iff_okwrite a i s e t, ?_, ?_⟩
  · rw [split_video_moviepy]
    simp only [Bool.true_eq_false, if_false, ite_false]
    rw [List.countP_append]
    have hz : ((List.range (num_chunks D L).toNat).flatMap fun k =>
        (moviepyChunkTrace D L dir ext attemptOk k).1).countP
          (fun ev => decide (ev = MoviepyEvent.videoClose)) = 0 := by
      rw [List.countP_eq_zero]
      intro ev hev
      rw [List.mem_flatMap] at hev
      obtain ⟨k, _, hevk⟩ := hev
      have hne := chunk_events_no_videoClose (attemptOk k) k
        ((k : ℚ) * L) (min (((k : ℚ) + 1) * L) D) (chunkFile dir (k + 1) ext) ev
      rw [moviepyChunkTrace] at hevk
      simpa using hne hevk
    rw [hz]
    simp
  · rw [split_video_moviepy]
    simp only [Bool.true_eq_false, if_false, ite_false]
    rw [List.getLast?_concat]

/-- Witness for `moviepy_close_discipline` at a concrete chunk and run. -/
theorem moviepy_close_discipline_at_one_chunk :
    (∀ j, MoviepyEvent.subclipClose 0 j
        ∈ (moviepy_chunk_events (fun k => decide (k = 1)) 0 0 60
            ⟨"output_chunks", "chunk_1.mp4"⟩).1 ↔
        MoviepyEvent.writeFile 0 j ⟨"output_chunks", "chunk_1.mp4"⟩
            (attemptCodecs j) true
          ∈ (moviepy_chunk_events (fun k => decide (k = 1)) 0 0 60
              ⟨"output_chunks", "chunk_1.mp4"⟩).1) ∧
    ((split_video_moviepy true true 150 "output_chunks" ".mp4" 60
        (fun _ _ => true)).events.countP
        (fun ev => decide (ev = MoviepyEvent.videoClose)) = 1) ∧
    ((split_video_moviepy true true 150 "output_chunks" ".mp4" 60
        (fun _ _ => true)).events.getLast?
        = some MoviepyEvent.videoClose) :=
  moviepy_close_discipline (fun k => decide (k = 1)) 0 0 60
    ⟨"output_chunks", "chunk_1.mp4"⟩ true true 150 60 "output_chunks" ".mp4"
    (fun _ _ => true) rfl rfl

theorem count_true_upto_zero (p : ℕ → Bool) : count_true_upto p 0 = 0 := rfl

theorem count_true_upto_succ (p : ℕ → Bool) (k : ℕ) :
    count_true_upto p (k + 1)
      = count_true_upto p k + (if p k then 1 else 0) := by
  rw [count_true_upto, count_true_upto, List.range_succ, List.filter_append]
  by_cases h : p k <;> simp [h]

theorem count_true_upto_le (p : ℕ → Bool) (k : ℕ) : count_true_upto p k ≤ k := by
  induction k with
  | zero => rfl
  | succ k ih =>
      rw [count_true_upto_succ]
      by_cases h : p k <;> simp [h] <;> omega

/-- Claim C10: the success counter of both strategies starts at zero, is
incremented at most once per chunk iteration and never decreases, so after
any number of iterations it is at most the number of chunks processed; and
the reported aggregate of either strategy, on a nonnegative duration and a
positive chunk length, satisfies 0 ≤ succeeded ≤ attempted. -/
theorem success_counter_bounds (p : ℕ → Bool) (k : ℕ)
    (d : ℚ) (dir ext : String) (L : ℚ) (chunkOk : ℕ → Bool)
    (editorOk loadOk : Bool) (attemptOk : ℕ → ℕ → Bool)
    (hd : 0 ≤ d) (hL : 0 < L) :
    count_true_upto p 0 = 0 ∧
    count_true_upto p k ≤ count_true_upto p (k + 1) ∧
    count_true_upto p (k + 1) ≤ count_true_upto p k + 1 ∧
    count_true_upto p k ≤ k ∧
    (∀ r, (split_video_ffmpeg (some d) dir ext L chunkOk).result = some r →
        0 ≤ r.attempted ∧ (r.succeeded : ℤ) ≤ r.attempted) ∧
    (∀ r, (split_video_moviepy editorOk loadOk d dir ext L attemptOk).result = some r →
        0 ≤ r.attempted ∧ (r.succeeded : ℤ) ≤ r.attempted) := by
  have hn : (0 : ℤ) ≤ ⌈d / L⌉ := Int.ceil_nonneg (div_nonneg hd hL.le)
  have key : ∀ q : ℕ → Bool, (count_true_upto q (num_chunks d L).toNat : ℤ)
      ≤ num_chunks d L := by
    intro q
    have h1 := count_true_upto_le q (num_chunks d L).toNat
    have h2 : ((num_chunks d L).toNat : ℤ) = num_chunks d L :=
      Int.toNat_of_nonneg hn
    omega
  refine ⟨rfl, ?_, ?_, count_true_upto_le p k, ?_, ?_⟩
  · rw [count_true_upto_succ]
    omega
  · rw [count_true_upto_succ]
    by_cases h : p k <;> simp [h]
  · intro r hr
    rw [split_video_ffmpeg] at hr
    simp only [Option.some.injEq] at hr
    subst hr
    exact ⟨hn, key chunkOk⟩
  · intro r hr
    rw [split_video_moviepy] at hr
    rcases he : editorOk with _ | _
    · simp [he] at hr
    · rcases hl : loadOk with _ | _
      · simp [he, hl] at hr
      · simp only [he, hl, Bool.true_eq_false, if_false, ite_false,
          Option.some.injEq] at hr
        subst hr
        exact ⟨hn, key _⟩

/-- Witness for `success_counter_bounds` at concrete inputs. -/
theorem success_counter_bounds_at_150_60 :
    (0 : ℚ) ≤ 150 ∧ (0 : ℚ) < 60 ∧
    (count_true_upto (fun _ => true) 0 = 0 ∧
    count_true_upto (fun _ => true) 2 ≤ count_true_upto (fun _ => true) 3 ∧
    count_true_upto (fun _ => true) 3 ≤ count_true_upto (fun _ => true) 2 + 1 ∧
    count_true_upto (fun _ => true) 2 ≤ 2 ∧
    (∀ r, (split_video_ffmpeg (some 150) "output_chunks" ".mp4" 60
        (fun _ => true)).result = some r →
        0 ≤ r.attempted ∧ (r.succeeded : ℤ) ≤ r.attempted) ∧
    (∀ r, (split_video_moviepy true true 150 "output_chunks" ".mp4" 60
        (fun _ _ => true)).result = some r →
        0 ≤ r.attempted ∧ (r.succeeded : ℤ) ≤ r.attempted)) :=
  ⟨by norm_num, by norm_num,
    success_counter_bounds (fun _ => true) 2 150 "output_chunks" ".mp4" 60
      (fun _ => true) true true (fun _ _ => true) (by norm_num) (by norm_num)⟩

/-- The `--method` choices of the argument parser (app.py lines 224-225). -/
inductive Method
  | moviepy
  | ffmpeg
  | auto
deriving DecidableEq

/-- Command-line arguments of `main`: the method selector, the output
directory (default `output_chunks`) and the chunk duration in seconds
(default 60). -/
structure Args where
  method : Method
  outputDir : String
  duration : ℚ

/-- The environment one `main` run observes. `probeEnv` drives both
`get_video_duration_ffmpeg` calls (in `main` and inside
`split_video_ffmpeg`); `ffmpegAvailable` is the result of
`check_ffmpeg_availability()`; `moviepyImportOk` whether
`from moviepy import VideoFileClip` succeeds (used by
`check_moviepy_availability()`); `moviepyEditorOk` whether
`from moviepy.editor import VideoFileClip` succeeds (used inside
`split_video_moviepy`); `moviepyLoadOk` / `moviepyDuration` the outcome of
`VideoFileClip(input_path)` and its `.duration`; `ffmpegChunkOk` and
`moviepyAttemptOk` the per-chunk external outcomes. -/
structure Env where
  inputExists : Bool
  ext : String
  probeEnv : ProbeEnv
  ffmpegAvailable : Bool
  moviepyImportOk : Bool
  moviepyEditorOk : Bool
  moviepyLoadOk : Bool
  moviepyDuration : ℚ
  ffmpegChunkOk : ℕ → Bool
  moviepyAttemptOk : ℕ → ℕ → Bool

/-- The duration `main` and `split_video_ffmpeg` observe from the probe. -/
def Env.probe (env : Env) : Option ℚ :=
  get_video_duration_ffmpeg env.probeEnv

/-- The guard of the short-circuit copy (app.py lines 248-250):
`args.method in (ffmpeg, auto)` and `duration and duration <= args.duration`
— note the Python truthiness test, under which a probed duration of 0.0
fails the guard exactly like `None`. -/
def shortCircuitGuard (m : Method) (L : ℚ) (probe : Option ℚ) : Bool :=
  (decide (m = Method.ffmpeg) || decide (m = Method.auto)) &&
    match probe with
    | some d => decide (d ≠ 0) && decide (d ≤ L)
    | none => false

/-- Method resolution (app.py lines 263-279): an explicit method is kept;
`auto` picks ffmpeg when available, else moviepy when importable, else
fails (`none`). -/
def resolve_method (m : Method) (env : Env) : Option Method :=
  match m with
  | Method.auto =>
      if env.ffmpegAvailable then some Method.ffmpeg
      else if env.moviepyImportOk then some Method.moviepy
      else none
  | m => some m

/-- Everything observable about one `main` run (app.py lines 221-294):
the returned exit code, whether the short-circuit copy fired and where it
copied to, which splitter strategy ran, its counters, and the external
calls made by the splitting phase. -/
structure MainOutcome where
  exitCode : ℕ
  shortCircuited : Bool
  copied : Option OutFile
  ranStrategy : Option Method
  splitResult : Option SplitResult
  ffmpegCalls : List FfmpegCmd
  moviepyEvents : List MoviepyEvent

/-- `main` (app.py lines 221-294): check the input exists, run the
short-circuit copy check for method ffmpeg/auto, resolve the method, check
the chosen backend's availability again at dispatch, run the chosen
splitter, and return 0 exactly when it reported success. -/
def main (a : Args) (env : Env) : MainOutcome :=
  if env.inputExists = false then
    ⟨1, false, none, none, none, [], []⟩
  else if shortCircuitGuard a.method a.duration env.probe then
    ⟨0, true, some (chunkFile a.outputDir 1 env.ext), none, none, [], []⟩
  else
    match resolve_method a.method env with
    | none => ⟨1, false, none, none, none, [], []⟩
    | some Method.ffmpeg =>
        if env.ffmpegAvailable = false then
          ⟨1, false, none, none, none, [], []⟩
        else
          let r := split_video_ffmpeg env.probe a.outputDir env.ext a.duration
            env.ffmpegChunkOk
          ⟨if r.success then 0 else 1, false, none, some Method.ffmpeg,
            r.result, r.calls, []⟩
    | some Method.moviepy =>
        if env.moviepyImportOk = false then
          ⟨1, false, none, none, none, [], []⟩
        else
          let r := split_video_moviepy env.moviepyEditorOk env.moviepyLoadOk
            env.moviepyDuration a.outputDir env.ext a.duration
            env.moviepyAttemptOk
          ⟨if r.success then 0 else 1, false, none, some Method.moviepy,
            r.result, [], r.events⟩
    | some Method.auto => ⟨1, false, none, none, none, [], []⟩

theorem ffmpeg_success_iff (probe : Option ℚ) (dir ext : String) (L : ℚ)
    (ok : ℕ → Bool) :
    (split_video_ffmpeg probe dir ext L ok).success = true ↔
      ∃ r, (split_video_ffmpeg probe dir ext L ok).result = some r ∧
        (r.succeeded : ℤ) = r.attempted := by
  rcases probe with _ | d <;> simp [split_video_ffmpeg]

theorem moviepy_success_iff (e l : Bool) (d : ℚ) (dir ext : String) (L : ℚ)
    (att : ℕ → ℕ → Bool) :
    (split_video_moviepy e l d dir ext L att).success = true ↔
      ∃ r, (split_video_moviepy e l d dir ext L att).result = some r ∧
        (r.succeeded : ℤ) = r.attempted := by
  rcases e with _ | _ <;> rcases l with _ | _ <;> simp [split_video_moviepy]

/-- Claim C3: the exit code is always 0 or 1, and it is 0 exactly when the
short-circuit copy fired or a splitter strategy ran and reported every
planned chunk succeeded (succeeded == attempted); a run whose strategy
reports any shortfall — failed chunks are only counted, never retried at
the chunk level, and never abort the loop — exits 1.  The chunk length is
assumed positive, as a nonpositive one makes the Python division raise
before any result is formed. -/
theorem exit_code_zero_iff_all_chunks (a : Args) (env : Env)
    (hL : 0 < a.duration) :
    ((main a env).exitCode = 0 ∨ (main a env).exitCode = 1) ∧
    ((main a env).exitCode = 0 ↔
      (main a env).shortCircuited = true ∨
      ∃ r, (main a env).splitResult = some r ∧
        (r.succeeded : ℤ) = r.attempted) := by
  rw [main]
  rcases hex : env.inputExists with _ | _
  · simp
  · rcases hsc : shortCircuitGuard a.method a.duration env.probe with _ | _
    case false =>
      rcases hres : resolve_method a.method env with _ | m
      · simp
      · rcases m with _ | _ | _
        · rcases him : env.moviepyImportOk with _ | _
          · simp
          · rcases hs : (split_video_moviepy env.moviepyEditorOk
                env.moviepyLoadOk env.moviepyDuration a.outputDir env.ext
                a.duration env.moviepyAttemptOk).success with _ | _
            · simp only [hs, if_false, ite_false]
              refine ⟨Or.inr rfl, ?_⟩
              constructor
              · intro h
                cases h
              · rintro (h | ⟨r, hr, heq⟩)
                · cases h
                · have h2 := (moviepy_success_iff env.moviepyEditorOk
                    env.moviepyLoadOk env.moviepyDuration a.outputDir env.ext
                    a.duration env.moviepyAttemptOk).mpr ⟨r, hr, heq⟩
                  rw [hs] at h2
                  cases h2
            · simp only [hs, if_true, ite_true]
              refine ⟨Or.inl rfl, ?_⟩
              constructor
              · intro _
                exact Or.inr ((moviepy_success_iff env.moviepyEditorOk
                    env.moviepyLoadOk env.moviepyDuration a.outputDir env.ext
                    a.duration env.moviepyAttemptOk).mp hs)
              · intro _
                rfl
        · rcases hav : env.ffmpegAvailable with _ | _
          · simp
          · rcases hs : (split_video_ffmpeg env.probe a.outputDir env.ext
                a.duration env.ffmpegChunkOk).success with _ | _
            · simp only [hs, if_false, ite_false]
              refine ⟨Or.inr rfl, ?_⟩
              constructor
              · intro h
                cases h
              · rintro (h | ⟨r, hr, heq⟩)
                · cases h
                · have h2 := (ffmpeg_success_iff env.probe a.outputDir env.ext
                    a.duration env.ffmpegChunkOk).mpr ⟨r, hr, heq⟩
                  rw [hs] at h2
                  cases h2
            · simp only [hs, if_true, ite_true]
              refine ⟨Or.inl rfl, ?_⟩
              constructor
              · intro _
                exact Or.inr ((ffmpeg_success_iff env.probe a.outputDir env.ext
                    a.duration env.ffmpegChunkOk).mp hs)
              · intro _
                rfl
        · simp
    case true => simp

/-- Witness for `exit_code_zero_iff_all_chunks` at a concrete run. -/
theorem exit_code_zero_iff_all_chunks_at_auto :
    (0 : ℚ) < 60 ∧
    (((main ⟨Method.auto, "output_chunks", 60⟩
        ⟨true, ".mp4", ⟨true, 0, some 150⟩, true, true, true, true, 150,
          fun _ => true, fun _ _ => true⟩).exitCode = 0 ∨
      (main ⟨Method.auto, "output_chunks", 60⟩
        ⟨true, ".mp4", ⟨true, 0, some 150⟩, true, true, true, true, 150,
          fun _ => true, fun _ _ => true⟩).exitCode = 1) ∧
    ((main ⟨Method.auto, "output_chunks", 60⟩
        ⟨true, ".mp4", ⟨true, 0, some 150⟩, true, true, true, true, 150,
          fun _ => true, fun _ _ => true⟩).exitCode = 0 ↔
      (main ⟨Method.auto, "output_chunks", 60⟩
        ⟨true, ".mp4", ⟨true, 0, some 150⟩, true, true, true, true, 150,
          fun _ => true, fun _ _ => true⟩).shortCircuited = true ∨
      ∃ r, (main ⟨Method.auto, "output_chunks", 60⟩
        ⟨true, ".mp4", ⟨true, 0, some 150⟩, true, true, true, true, 150,
          fun _ => true, fun _ _ => true⟩).splitResult = some r ∧
        (r.succeeded : ℤ) = r.attempted)) :=
  ⟨by norm_num,
    exit_code_zero_iff_all_chunks ⟨Method.auto, "output_chunks", 60⟩
      ⟨true, ".mp4", ⟨true, 0, some 150⟩, true, true, true, true, 150,
        fun _ => true, fun _ _ => true⟩ (by norm_num)⟩

/-- Claim C4: when the method is ffmpeg or auto and the probe yields a
positive duration not exceeding the configured chunk length, `main` copies
the source verbatim to `chunk_1<ext>` in the output directory and exits 0,
running neither splitter strategy (no splitter calls, no counters). -/
theorem short_circuit_copy (a : Args) (env : Env) (d : ℚ)
    (hm : a.method = Method.ffmpeg ∨ a.method = Method.auto)
    (hex : env.inputExists = true)
    (hp : env.probe = some d) (hd : 0 < d) (hdL : d ≤ a.duration) :
    main a env = ⟨0, true, some (chunkFile a.outputDir 1 env.ext),
      none, none, [], []⟩ := by
  have hg : shortCircuitGuard a.method a.duration env.probe = true := by
    rw [hp]
    rcases hm with h | h <;> simp [shortCircuitGuard, h, hd.ne', hdL]
  rw [main, hex, hg]
  simp

/-- Witness for `short_circuit_copy`: duration 45 against chunk length 60. -/
theorem short_circuit_copy_at_45_60 :
    (Method.auto = Method.ffmpeg ∨ Method.auto = Method.auto) ∧
    (0 : ℚ) < 45 ∧ (45 : ℚ) ≤ 60 ∧
    main ⟨Method.auto, "output_chunks", 60⟩
        ⟨true, ".mp4", ⟨true, 0, some 45⟩, true, true, true, true, 45,
          fun _ => true, fun _ _ => true⟩
      = ⟨0, true, some (chunkFile "output_chunks" 1 ".mp4"),
          none, none, [], []⟩ :=
  ⟨Or.inr rfl, by norm_num, by norm_num,
    short_circuit_copy ⟨Method.auto, "output_chunks", 60⟩
      ⟨true, ".mp4", ⟨true, 0, some 45⟩, true, true, true, true, 45,
        fun _ => true, fun _ _ => true⟩ 45 (Or.inr rfl) rfl rfl
      (by norm_num) (by norm_num)⟩

/-- Claim C6: an explicit method is dispatched directly and fails the run
(exit 1, nothing run) when that backend is unavailable; `auto` picks ffmpeg
when available, otherwise moviepy when importable — in which case no
fast-path splitter invocation is made — and fails with exit 1 only when
neither backend is available, producing no splitter activity at all. -/
theorem method_resolution (a : Args) (env : Env)
    (hex : env.inputExists = true)
    (hsc : shortCircuitGuard a.method a.duration env.probe = false) :
    (a.method = Method.ffmpeg → env.ffmpegAvailable = false →
        (main a env).exitCode = 1 ∧ (main a env).ranStrategy = none ∧
        (main a env).ffmpegCalls = [] ∧ (main a env).moviepyEvents = []) ∧
    (a.method = Method.moviepy → env.moviepyImportOk = false →
        (main a env).exitCode = 1 ∧ (main a env).ranStrategy = none ∧
        (main a env).ffmpegCalls = [] ∧ (main a env).moviepyEvents = []) ∧
    (a.method = Method.ffmpeg → env.ffmpegAvailable = true →
        (main a env).ranStrategy = some Method.ffmpeg) ∧
    (a.method = Method.moviepy → env.moviepyImportOk = true →
        (main a env).ranStrategy = some Method.moviepy) ∧
    (a.method = Method.auto → env.ffmpegAvailable = true →
        (main a env).ranStrategy = some Method.ffmpeg) ∧
    (a.method = Method.auto → env.ffmpegAvailable = false →
        env.moviepyImportOk = true →
        (main a env).ranStrategy = some Method.moviepy ∧
        (main a env).ffmpegCalls = []) ∧
    (a.method = Method.auto → env.ffmpegAvailable = false →
        env.moviepyImportOk = false →
        (main a env).exitCode = 1 ∧ (main a env).ranStrategy = none ∧
        (main a env).ffmpegCalls = [] ∧ (main a env).moviepyEvents = []) := by
  refine ⟨?_, ?_, ?_, ?_, ?_, ?_, ?_⟩
  · intro h1 h2
    rw [h1] at hsc
    simp [main, hex, h1, hsc, resolve_method, h2]
  · intro h1 h2
    rw [h1] at hsc
    simp [main, hex, h1, hsc, resolve_method, h2]
  · intro h1 h2
    rw [h1] at hsc
    cases hs : (split_video_ffmpeg env.probe a.outputDir env.ext a.duration
        env.ffmpegChunkOk).success <;>
      simp [main, hex, h1, hsc, resolve_method, h2, hs]
  · intro h1 h2
    rw [h1] at hsc
    cases hs : (split_video_moviepy env.moviepyEditorOk env.moviepyLoadOk
        env.moviepyDuration a.outputDir env.ext a.duration
        env.moviepyAttemptOk).success <;>
      simp [main, hex, h1, hsc, resolve_method, h2, hs]
  · intro h1 h2
    rw [h1] at hsc
    cases hs : (split_video_ffmpeg env.probe a.outputDir env.ext a.duration
        env.ffmpegChunkOk).success <;>
      simp [main, hex, h1, hsc, resolve_method, h2, hs]
  · intro h1 h2 h3
    rw [h1] at hsc
    cases hs : (split_video_moviepy env.moviepyEditorOk env.moviepyLoadOk
        env.moviepyDuration a.outputDir env.ext a.duration
        env.moviepyAttemptOk).success <;>
      simp [main, hex, h1, hsc, resolve_method, h2, h3, hs]
  · intro h1 h2 h3
    rw [h1] at hsc
    simp [main, hex, h1, hsc, resolve_method, h2, h3]

/-- Witness for `method_resolution`: auto with ffmpeg unavailable and
moviepy available. -/
theorem method_resolution_at_auto_no_ffmpeg :
    (main ⟨Method.auto, "output_chunks", 60⟩
        ⟨true, ".mp4", ⟨false, 1, none⟩, false, true, true, true, 150,
          fun _ => true, fun _ _ => true⟩).ranStrategy
      = some Method.moviepy ∧
    (main ⟨Method.auto, "output_chunks", 60⟩
        ⟨true, ".mp4", ⟨false, 1, none⟩, false, true, true, true, 150,
          fun _ => true, fun _ _ => true⟩).ffmpegCalls = [] :=
  (method_resolution ⟨Method.auto, "output_chunks", 60⟩
      ⟨true, ".mp4", ⟨false, 1, none⟩, false, true, true, true, 150,
        fun _ => true, fun _ _ => true⟩ rfl rfl).2.2.2.2.2.1 rfl rfl rfl

/-- Claim C9: a probed duration of exactly 0 fails the Python truthiness
test in the short-circuit guard, so it is treated exactly like an
unobtainable duration (`None`): the guard is false and the run proceeds
past the short-circuit copy to method resolution and splitting. -/
theorem zero_duration_no_short_circuit (a : Args) (env : Env)
    (hp : env.probe = some 0) (hex : env.inputExists = true) :
    shortCircuitGuard a.method a.duration env.probe = false ∧
    shortCircuitGuard a.method a.duration none = false ∧
    (main a env).shortCircuited = false ∧ (main a env).copied = none := by
  have hg : shortCircuitGuard a.method a.duration env.probe = false := by
    rw [hp]
    simp [shortCircuitGuard]
  have hg2 : shortCircuitGuard a.method a.duration none = false := by
    simp [shortCircuitGuard]
  refine ⟨hg, hg2, ?_⟩
  rw [main, hex, hg]
  simp only [Bool.true_eq_false, if_false, ite_false]
  rcases resolve_method a.method env with _ | m
  · exact ⟨rfl, rfl⟩
  · rcases m with _ | _ | _
    · cases env.moviepyImportOk
      · exact ⟨rfl, rfl⟩
      · cases (split_video_moviepy env.moviepyEditorOk env.moviepyLoadOk
            env.moviepyDuration a.outputDir env.ext a.duration
            env.moviepyAttemptOk).success <;> exact ⟨rfl, rfl⟩
    · cases env.ffmpegAvailable
      · exact ⟨rfl, rfl⟩
      · cases (split_video_ffmpeg env.probe a.outputDir env.ext a.duration
            env.ffmpegChunkOk).success <;> exact ⟨rfl, rfl⟩
    · exact ⟨rfl, rfl⟩

/-- Witness for `zero_duration_no_short_circuit` at a concrete run. -/
theorem zero_duration_no_short_circuit_at_auto :
    shortCircuitGuard Method.auto 60
        (Env.probe ⟨true, ".mp4", ⟨true, 0, some 0⟩, true, true, true, true, 0,
          fun _ => true, fun _ _ => true⟩) = false ∧
    shortCircuitGuard Method.auto 60 none = false ∧
    (main ⟨Method.auto, "output_chunks", 60⟩
        ⟨true, ".mp4", ⟨true, 0, some 0⟩, true, true, true, true, 0,
          fun _ => true, fun _ _ => true⟩).shortCircuited = false ∧
    (main ⟨Method.auto, "output_chunks", 60⟩
        ⟨true, ".mp4", ⟨true, 0, some 0⟩, true, true, true, true, 0,
          fun _ => true, fun _ _ => true⟩).copied = none :=
  zero_duration_no_short_circuit ⟨Method.auto, "output_chunks", 60⟩
    ⟨true, ".mp4", ⟨true, 0, some 0⟩, true, true, true, true, 0,
      fun _ => true, fun _ _ => true⟩ rfl rfl

end SplitMovie
